import Mathlib

/-!
Verification of the style-generation orchestration and resilient-request
layer of the instant-remodel application.

The definitions below are a shallow embedding of the TypeScript source:
the serverless handler helpers (`callGeminiWithRetry`, `processGeminiResponse`
in its Vercel and Netlify variants, `extractStyle`, `getFallbackPrompt`,
`generateStyleImage`), the frontend service validation
(`services/geminiService.ts`), and the React orchestration
(`handleGenerateClick` worker pool, `handleRegenerateStyle`).

JavaScript strings are modelled as Lean `String`s, thrown errors as the
`Except.error` branch with the thrown message, and `undefined`-able record
fields as `Option`s.  Asynchronous upstream calls are modelled by explicit
environments (functions from prompt text and attempt number to a result),
and the two-worker fan-out loop by a small labelled transition system.
-/

namespace InstantRemodel

/-! ## String helpers (JavaScript semantics) -/

/-- Substring search on character lists: `containsSub hay pat` is `true`
iff `pat` occurs contiguously inside `hay` (JavaScript `String.includes`). -/
def containsSub : List Char → List Char → Bool
  | [], pat => pat.isEmpty
  | c :: t, pat => pat.isPrefixOf (c :: t) || containsSub t pat

/-- JavaScript `hay.includes(pat)`. -/
def strIncludes (hay pat : String) : Bool :=
  containsSub hay.toList pat.toList

/-- JavaScript `s || dflt` for a possibly-`undefined` string `s`:
yields `dflt` when `s` is `undefined` or empty (falsy), `s` otherwise. -/
def jsOr (s : Option String) (dflt : String) : String :=
  match s with
  | some v => if v = "" then dflt else v
  | none => dflt

/-- JavaScript truthiness of a possibly-`undefined` string. -/
def jsTruthyStr (s : Option String) : Bool :=
  match s with
  | some v => v ≠ ""
  | none => false

/-- JavaScript template-literal stringification of a possibly-`undefined`
string value (an `undefined` interpolates as the text "undefined"). -/
def jsInterp (s : Option String) : String :=
  match s with
  | some v => v
  | none => "undefined"

/-! ## Upstream response model

Shape of a `GenerateContentResponse` as far as the handlers inspect it:
candidate list (possibly absent), a nested `response.candidates` (the
Netlify variant also probes `response.response?.candidates`), and the
`text` accessor. -/

/-- An `inlineData` payload: declared media type and base64 data (the
`data` field may be absent in a malformed upstream part). -/
structure InlineData where
  mimeType : String
  data : Option String
  deriving DecidableEq

/-- One content part of an upstream candidate. -/
structure GenPart where
  inlineData : Option InlineData
  text : Option String
  deriving DecidableEq

/-- One candidate: its `content.parts` list. -/
structure Candidate where
  parts : List GenPart
  deriving DecidableEq

/-- The upstream response as inspected by the handlers. -/
structure GenResponse where
  candidates : Option (List Candidate)
  nestedCandidates : Option (List Candidate)
  text : Option String
  deriving DecidableEq

/-- `response.candidates?.[0]?.content?.parts` (Vercel access path),
with an absent chain collapsing to the empty part list. -/
def partsV (r : GenResponse) : List GenPart :=
  match r.candidates with
  | some (c :: _) => c.parts
  | _ => []

/-- Builds the returned data URL string
`data:${mimeType};base64,${data}` of an inline part. -/
def mkDataUrl (mimeType : String) (data : Option String) : String :=
  "data:" ++ mimeType ++ ";base64," ++ jsInterp data

/-- Vercel-variant `processGeminiResponse`: take the first content part
carrying `inlineData` and rebuild its data URL; otherwise throw the
text-instead-of-image error with the response text (or a placeholder). -/
def processGeminiResponse (r : GenResponse) : Except String String :=
  match (partsV r).find? (fun p => p.inlineData.isSome) with
  | some p =>
    match p.inlineData with
    | some d => .ok (mkDataUrl d.mimeType d.data)
    | none =>
      .error ("The AI model responded with text instead of an image: \""
        ++ jsOr r.text "No text response received." ++ "\"")
  | none =>
    .error ("The AI model responded with text instead of an image: \""
      ++ jsOr r.text "No text response received." ++ "\"")

/-! ## Retrying call wrapper -/

/-- Classification of a transient (retry-worthy) upstream failure:
the error text mentions `"code":500` or `INTERNAL`. -/
def isInternalError (msg : String) : Bool :=
  strIncludes msg "\"code\":500" || strIncludes msg "INTERNAL"

/-- Attempt budget of `callGeminiWithRetry`. -/
def maxRetries : Nat := 3

/-- Base backoff delay (milliseconds) of `callGeminiWithRetry`. -/
def initialDelay : Nat := 1000

/-- Observable outcome of one `callGeminiWithRetry` invocation: final
result, number of upstream calls issued, and the backoff delays waited. -/
structure RetryResult where
  result : Except String GenResponse
  callsMade : Nat
  delays : List Nat

/-- The `for (let attempt = 1; attempt <= maxRetries; attempt++)` loop of
`callGeminiWithRetry`, with the upstream call modelled by `stub` (attempt
number → outcome).  `remaining` counts loop iterations still allowed,
`attempt` is the 1-based counter, `calls` and `delays` accumulate the
observable trace. -/
def retryLoop (stub : Nat → Except String GenResponse) :
    Nat → Nat → Nat → List Nat → RetryResult
  | 0, _, calls, delays =>
    ⟨.error "Gemini API call failed after all retries.", calls, delays⟩
  | remaining + 1, attempt, calls, delays =>
    match stub attempt with
    | .ok r => ⟨.ok r, calls + 1, delays⟩
    | .error msg =>
      if isInternalError msg = true ∧ attempt < maxRetries then
        retryLoop stub remaining (attempt + 1) (calls + 1)
          (delays ++ [initialDelay * 2 ^ (attempt - 1)])
      else ⟨.error msg, calls + 1, delays⟩

/-- `callGeminiWithRetry`, with the upstream call abstracted by `stub`. -/
def callGeminiWithRetry (stub : Nat → Except String GenResponse) : RetryResult :=
  retryLoop stub maxRetries 1 0 []

/-! ## Netlify-variant response interpreter -/

/-- `response.candidates || response.response?.candidates` (an empty
array is truthy in JavaScript, so presence decides the choice). -/
def candidatesN (r : GenResponse) : Option (List Candidate) :=
  match r.candidates with
  | some cs => some cs
  | none => r.nestedCandidates

/-- The Netlify variant's `firstCandidate`. -/
def firstCandidateN (r : GenResponse) : Option Candidate :=
  match candidatesN r with
  | some (c :: _) => some c
  | _ => none

/-- `firstCandidate?.content?.parts` in the Netlify variant. -/
def partsN (r : GenResponse) : List GenPart :=
  match firstCandidateN r with
  | some c => c.parts
  | none => []

/-- The `for (const part of parts)` loop body: first part whose
`inlineData` is truthy. -/
def netlifyScanParts : List GenPart → Option InlineData
  | [] => none
  | p :: rest =>
    match p.inlineData with
    | some d => some d
    | none => netlifyScanParts rest

/-- Stand-in for `JSON.stringify(firstCandidate?.content)`: applied to an
`undefined` candidate it yields `undefined`; otherwise some rendering of
the content object.  No claim depends on the rendered text, only on its
presence, so a simple concatenation of the parts' text fields is used. -/
def jsonStringifyContent (c : Option Candidate) : Option String :=
  match c with
  | none => none
  | some cand =>
    some ("[content with " ++ toString cand.parts.length ++ " parts]")

/-- The Netlify variant's `textResponse` fallback chain:
`parts.find(p => p.text)?.text || response.text || JSON.stringify(...)`. -/
def netlifyTextResponse (r : GenResponse) : Option String :=
  match ((partsN r).find? (fun p => jsTruthyStr p.text)).bind (fun p => p.text) with
  | some v =>
    if v = "" then
      match r.text with
      | some w => if w = "" then jsonStringifyContent (firstCandidateN r) else some w
      | none => jsonStringifyContent (firstCandidateN r)
    else some v
  | none =>
    match r.text with
    | some w => if w = "" then jsonStringifyContent (firstCandidateN r) else some w
    | none => jsonStringifyContent (firstCandidateN r)

/-- Netlify-variant `processGeminiResponse`: scan the first candidate's
parts for inline data, reject an empty or missing data payload, and
otherwise rebuild the data URL; with no inline part, throw the
did-not-generate error carrying the text fallback chain. -/
def processGeminiResponseNetlify (r : GenResponse) : Except String String :=
  match netlifyScanParts (partsN r) with
  | some d =>
    match d.data with
    | none => .error "Image data is empty"
    | some s =>
      if s.length = 0 then .error "Image data is empty"
      else .ok ("data:" ++ d.mimeType ++ ";base64," ++ s)
  | none =>
    .error ("The AI model did not generate an image. Response: \""
      ++ jsOr (netlifyTextResponse r) "No valid response received." ++ "\"")

/-! ## Style catalogue, prompts and style extraction -/

/-- The fixed style catalogue (`STYLES` in `App.tsx`). -/
def STYLES : List String :=
  ["Modern", "Scandinavian", "Industrial", "Bohemian", "Farmhouse", "Minimalist"]

/-- The primary instruction text built by `processStyle` (and by
`handleRegenerateStyle`) for a style. -/
def processStylePrompt (style : String) : String :=
  "Using the provided image(s) of a room or home exterior, generate a photorealistic remodeled version in a "
    ++ style
    ++ " design style. The new design should be a plausible renovation of the original space, keeping the core structure (windows, doors) in the same location but changing walls, floors, furniture, lighting, and decor to fit the new aesthetic. The output must be a high-quality, photorealistic image."

/-- `getFallbackPrompt`: the simpler instruction used after a blocked
primary prompt. -/
def getFallbackPrompt (style : String) : String :=
  "Create a photorealistic image showing a remodeled version of the room in this photo in the "
    ++ style ++ " style. Focus on changing the furniture, wall color, and decor."

/-- The literal pattern the `extractStyle` regular expression matches for
one alternative: `in a <style> design style`. -/
def stylePattern (style : String) : List Char :=
  ("in a " ++ style ++ " design style").toList

/-- Left-to-right scan of `extractStyle`'s regular expression
`/in a (Modern|Scandinavian|Industrial|Bohemian|Farmhouse|Minimalist) design style/`:
at each start position the alternatives are tried in listed order, and the
leftmost matching position wins. -/
def scanExtract : List Char → Option String
  | [] => none
  | c :: t =>
    match STYLES.find? (fun s => (stylePattern s).isPrefixOf (c :: t)) with
    | some s => some s
    | none => scanExtract t

/-- `extractStyle`: recover the style name embedded in a prompt,
or `null` when the pattern does not occur. -/
def extractStyle (prompt : String) : Option String :=
  scanExtract prompt.toList

/-! ## Data-URL parsing (`/^data:(image\/\w+);base64,(.*)$/`) -/

/-- JavaScript `\w` character class. -/
def isWordChar (c : Char) : Bool :=
  c.isAlphanum || c = '_'

/-- A character the JavaScript `.` (without the `s` flag) matches:
anything but a line terminator. -/
def jsDotChar (c : Char) : Bool :=
  c ≠ '\n' && c ≠ '\r' && c ≠ '\u2028' && c ≠ '\u2029'

/-- Match of `url.match(/^data:(image\/\w+);base64,(.*)$/)`, returning the
two capture groups (media type, base64 payload) on success.  The greedy
`\w+` cannot backtrack successfully (a shorter munch would put a word
character where `;` is required), so the maximal-munch reading below is
exact. -/
def parseDataUrl (url : String) : Option (String × String) :=
  let cs := url.toList
  let pre := "data:image/".toList
  if pre.isPrefixOf cs then
    let rest := cs.drop pre.length
    let w := rest.takeWhile isWordChar
    let r2 := rest.dropWhile isWordChar
    if w ≠ [] ∧ ";base64,".toList.isPrefixOf r2 then
      let payload := r2.drop ";base64,".toList.length
      if payload.all jsDotChar then
        some (⟨'i' :: 'm' :: 'a' :: 'g' :: 'e' :: '/' :: w⟩, ⟨payload⟩)
      else none
    else none
  else none

/-- One parsed `inlineData` request part. -/
structure InlinePart where
  mimeType : String
  data : String
  deriving DecidableEq

/-- The `imageDataUrls.map(url => ...)` step of `generateStyleImage`:
parse every data URL, throwing the invalid-format error at the first
failure. -/
def parseAllImages : List String → Except String (List InlinePart)
  | [] => .ok []
  | u :: rest =>
    match parseDataUrl u with
    | none =>
      .error "Invalid image data URL format. Expected \x27data:image/...;base64,...\x27"
    | some (mt, d) =>
      match parseAllImages rest with
      | .error e => .error e
      | .ok l => .ok (⟨mt, d⟩ :: l)

/-! ## Per-style generation (`generateStyleImage`, server variants) -/

/-- One call-then-interpret sequence: run the retrying wrapper on the
environment's stub for this prompt, then interpret its response with the
given response interpreter.  Returns the outcome and the number of
upstream calls issued. -/
def attemptPrompt (interp : GenResponse → Except String String)
    (env : String → Nat → Except String GenResponse) (prompt : String) :
    Except String String × Nat :=
  let r := callGeminiWithRetry (env prompt)
  match r.result with
  | .error m => (.error m, r.callsMade)
  | .ok resp => (interp resp, r.callsMade)

/-- Marker text whose presence classifies a failure as `NoImageProduced`
(`isNoImageError` in both server variants). -/
def noImageMarker : String :=
  "The AI model responded with text instead of an image"

/-- Observable outcome of one server-side `generateStyleImage` run:
final result, the instruction texts sent (one entry per invocation of the
retrying wrapper), and the total number of upstream calls issued. -/
structure GenRun where
  result : Except String String
  promptsSent : List String
  upstreamCalls : Nat

/-- Server-side `generateStyleImage`, parameterised by the response
interpreter (the Vercel and Netlify variants are textually identical and
differ only in which `processGeminiResponse` is in scope). -/
def generateStyleImageWith (interp : GenResponse → Except String String)
    (env : String → Nat → Except String GenResponse)
    (imageDataUrls : List String) (prompt : String) : GenRun :=
  match parseAllImages imageDataUrls with
  | .error e => ⟨.error e, [], 0⟩
  | .ok _imageParts =>
    match attemptPrompt interp env prompt with
    | (.ok url, n) => ⟨.ok url, [prompt], n⟩
    | (.error msg, n) =>
      if strIncludes msg noImageMarker = true then
        match extractStyle prompt with
        | none => ⟨.error msg, [prompt], n⟩
        | some style =>
          match attemptPrompt interp env (getFallbackPrompt style) with
          | (.ok url, n2) =>
            ⟨.ok url, [prompt, getFallbackPrompt style], n + n2⟩
          | (.error m2, n2) =>
            ⟨.error ("The AI model failed with both original and fallback prompts. Last error: "
                ++ m2),
              [prompt, getFallbackPrompt style], n + n2⟩
      else
        ⟨.error ("The AI model failed to generate an image. Details: " ++ msg),
          [prompt], n⟩

/-- The Vercel handler's `generateStyleImage`. -/
def generateStyleImage (env : String → Nat → Except String GenResponse)
    (imageDataUrls : List String) (prompt : String) : GenRun :=
  generateStyleImageWith processGeminiResponse env imageDataUrls prompt

/-- The Netlify handler's `generateStyleImage`. -/
def generateStyleImageNetlify (env : String → Nat → Except String GenResponse)
    (imageDataUrls : List String) (prompt : String) : GenRun :=
  generateStyleImageWith processGeminiResponseNetlify env imageDataUrls prompt

/-! ## Frontend service validation (`services/geminiService.ts`) -/

/-- JavaScript `String.prototype.trim`. -/
def jsTrim (s : String) : String :=
  ⟨((s.toList.dropWhile Char.isWhitespace).reverse.dropWhile
      Char.isWhitespace).reverse⟩

/-- JavaScript `u.startsWith(p)`. -/
def jsStartsWith (u p : String) : Bool :=
  p.toList.isPrefixOf u.toList

/-- The validation phase of the frontend `generateStyleImage`, returning
the thrown message of the first failing check, or `none` when control
reaches the `fetch` call to the `/api/generate` proxy. -/
def validateGenerateRequest (imageDataUrls : List String) (prompt : String) :
    Option String :=
  if imageDataUrls.isEmpty then
    some "At least one image is required for remodeling"
  else if (jsTrim prompt).length = 0 then
    some "A prompt is required for image generation"
  else
    match imageDataUrls.find? (fun u => !(jsStartsWith u "data:image/")) with
    | some _ => some "All images must be valid data URLs"
    | none => none

/-- Whether the frontend service issues the `/api/generate` network call
for a request: in the source, `fetch` directly follows the three
validation checks, so the call is issued exactly when validation passes. -/
def frontendIssuesFetch (imageDataUrls : List String) (prompt : String) : Bool :=
  (validateGenerateRequest imageDataUrls prompt).isNone

/-! ## Session state and the bounded-concurrency scheduler (`App.tsx`) -/

/-- `ImageStatus` from `App.tsx`. -/
inductive ImageStatus
  | pending
  | done
  | error
  deriving DecidableEq

/-- `GeneratedImage` from `App.tsx`: a per-style session entry. -/
structure GeneratedImage where
  status : ImageStatus
  url : Option String
  errorMsg : Option String
  deriving DecidableEq

/-- The session entry `processStyle` writes for a completed task: its
`try` block writes `done` with the url, its `catch` block writes `error`
with the thrown message — never `pending`. -/
def processStyleOutcome (r : Except String String) : GeneratedImage :=
  match r with
  | .ok url => ⟨.done, some url, none⟩
  | .error e => ⟨.error, none, some e⟩

/-- Whether a session entry is terminal (`done` or `error`). -/
def isTerminal (o : Option GeneratedImage) : Bool :=
  match o with
  | some gi => gi.status = ImageStatus.done || gi.status = ImageStatus.error
  | none => false

/-- `concurrencyLimit` in `handleGenerateClick`. -/
def concurrencyLimit : Nat := 2

/-- Control state of one entry of the `workers` array: between loop
iterations (`looping`), awaiting `processStyle(style)` (`inFlight`), or
returned because the queue was empty (`exited`). -/
inductive WorkerState
  | looping
  | inFlight (style : String)
  | exited
  deriving DecidableEq

/-- State of one generation round: the shared `stylesQueue`, the worker
pool, and the `generatedImages` session map (`none` = key absent). -/
structure SchedState where
  queue : List String
  workers : List WorkerState
  session : String → Option GeneratedImage

/-- Small-step transition system of the `handleGenerateClick` worker
loop.  `env` gives each style's task result (the task itself never
leaves an exception escape, per `processStyle`'s catch-all).  A worker
atomically `shift()`s the queue head and starts its task; a completed
task writes its outcome into the session map; a worker seeing an empty
queue exits its loop. -/
inductive Step (env : String → Except String String) :
    SchedState → SchedState → Prop
  | pop (st : SchedState) (i : Nat) (style : String) (rest : List String) :
      st.workers.get? i = some WorkerState.looping →
      st.queue = style :: rest →
      Step env st
        ⟨rest, st.workers.set i (WorkerState.inFlight style), st.session⟩
  | complete (st : SchedState) (i : Nat) (style : String) :
      st.workers.get? i = some (WorkerState.inFlight style) →
      Step env st
        ⟨st.queue, st.workers.set i WorkerState.looping,
          fun s =>
            if s = style then some (processStyleOutcome (env style))
            else st.session s⟩
  | exitw (st : SchedState) (i : Nat) :
      st.workers.get? i = some WorkerState.looping →
      st.queue = [] →
      Step env st ⟨[], st.workers.set i WorkerState.exited, st.session⟩

/-- State immediately after `handleGenerateClick` starts a round: the
session map is the `initialImages` record (every catalogue style
`pending`), the queue holds the full catalogue, and
`Array(concurrencyLimit)` workers are about to loop. -/
def initState : SchedState :=
  { queue := STYLES
    workers := List.replicate concurrencyLimit WorkerState.looping
    session := fun s =>
      if STYLES.contains s then some ⟨ImageStatus.pending, none, none⟩
      else none }

/-- States a generation round can reach. -/
def Reachable (env : String → Except String String) (st : SchedState) : Prop :=
  Relation.ReflTransGen (Step env) initState st

/-- Number of workers whose `processStyle` call is in flight. -/
def countInFlight (st : SchedState) : Nat :=
  (st.workers.filter (fun w =>
    match w with
    | WorkerState.inFlight _ => true
    | _ => false)).length

/-- All workers have exited; `await Promise.all(workers)` has resolved. -/
def allExited (st : SchedState) : Prop :=
  ∀ w ∈ st.workers, w = WorkerState.exited

/-- No transition applies. -/
def StuckState (env : String → Except String String) (st : SchedState) : Prop :=
  ¬ ∃ st2, Step env st st2

/-- Termination measure of the worker loop. -/
def workerWeight (w : WorkerState) : Nat :=
  match w with
  | WorkerState.looping => 1
  | WorkerState.inFlight _ => 2
  | WorkerState.exited => 0

/-- Termination measure of a round: strictly decreases on every step. -/
def roundMeasure (st : SchedState) : Nat :=
  3 * st.queue.length + (st.workers.map workerWeight).sum

/-- Inductive invariant of a generation round: the worker pool keeps its
size; once any worker has exited the queue is (and stays) empty; and
every catalogue style is either still queued, in flight with some
worker, or terminally recorded in the session map. -/
def SchedInv (st : SchedState) : Prop :=
  st.workers.length = concurrencyLimit ∧
  (WorkerState.exited ∈ st.workers → st.queue = []) ∧
  (∀ s ∈ STYLES, s ∈ st.queue ∨ WorkerState.inFlight s ∈ st.workers ∨
    isTerminal (st.session s) = true)

/-! ## Single-style regeneration (`handleRegenerateStyle`) -/

/-- Observable outcome of one `handleRegenerateStyle` invocation: the
final session map and the number of upstream generation calls issued. -/
structure RegenResult where
  session : String → Option GeneratedImage
  callsIssued : Nat

/-- `handleRegenerateStyle`: refuse when no images are uploaded or the
style is already `pending`; otherwise mark the style `pending`, run the
generation call (result abstracted by `env`), and record the terminal
outcome. -/
def handleRegenerateStyle (env : Except String String)
    (uploadedImages : List String)
    (session : String → Option GeneratedImage) (style : String) : RegenResult :=
  if uploadedImages.length = 0 then ⟨session, 0⟩
  else if (session style).map (fun gi => gi.status)
      = some ImageStatus.pending then ⟨session, 0⟩
  else
    let pendingSession : String → Option GeneratedImage := fun s =>
      if s = style then some ⟨ImageStatus.pending, none, none⟩ else session s
    match env with
    | .ok url =>
      ⟨fun s =>
        if s = style then some ⟨ImageStatus.done, some url, none⟩
        else pendingSession s, 1⟩
    | .error e =>
      ⟨fun s =>
        if s = style then some ⟨ImageStatus.error, none, some e⟩
        else pendingSession s, 1⟩

/-! ## Concrete upstream environments used by the witnesses -/

/-- A response whose first candidate carries one inline-data part. -/
def respImage : GenResponse :=
  ⟨some [⟨[⟨some ⟨"image/png", some "QUJD"⟩, none⟩]⟩], none, none⟩

/-- A text-only response (no inline-data part anywhere). -/
def respText : GenResponse :=
  ⟨some [⟨[⟨none, some "cannot comply"⟩]⟩], none, some "cannot comply"⟩

/-- A response whose first inline-data part has an empty data string. -/
def respEmptyData : GenResponse :=
  ⟨some [⟨[⟨some ⟨"image/png", some ""⟩, none⟩]⟩], none, none⟩

/-- Upstream environment that always succeeds with an image. -/
def envImage : String → Nat → Except String GenResponse :=
  fun _ _ => .ok respImage

/-- Upstream environment returning a text-only response for the primary
"Modern" prompt and an image for any other prompt (the fallback). -/
def envTextThenImage : String → Nat → Except String GenResponse :=
  fun p _ => if p = processStylePrompt "Modern" then .ok respText else .ok respImage

/-- Upstream stub failing transiently on the first two attempts and
succeeding on the third. -/
def stubTwoTransient : Nat → Except String GenResponse :=
  fun n => if n ≤ 2 then .error "INTERNAL" else .ok respImage

/-- Upstream environment that always fails with a non-transient,
non-no-image error. -/
def envDenied : String → Nat → Except String GenResponse :=
  fun _ _ => .error "PERMISSION_DENIED"

/-- Task-level environment for scheduler runs: every style succeeds. -/
def envTaskOk : String → Except String String :=
  fun _ => .ok "data:image/png;base64,QUJD"

/-- Upstream environment that always returns the text-only response. -/
def envText : String → Nat → Except String GenResponse :=
  fun _ _ => .ok respText

/-! # Theorems -/

/-! ## List and string helper lemmas -/

/-- A list is a `isPrefixOf` of itself appended with anything. -/
theorem isPrefixOf_append_self {α : Type} [BEq α] [LawfulBEq α]
    (l m : List α) : l.isPrefixOf (l ++ m) = true := by
  induction l with
  | nil => simp [List.isPrefixOf]
  | cons a t ih => simp [List.isPrefixOf, ih]

/-- `isPrefixOf` is reflexive. -/
theorem isPrefixOf_self {α : Type} [BEq α] [LawfulBEq α]
    (l : List α) : l.isPrefixOf l = true := by
  have h := isPrefixOf_append_self l ([] : List α)
  rwa [List.append_nil] at h

/-- `containsSub` finds a pattern that is a suffix of the haystack. -/
theorem containsSub_append_self (a b : List Char) :
    containsSub (a ++ b) b = true := by
  induction a with
  | nil =>
    cases b with
    | nil => rfl
    | cons c t => simp [containsSub, isPrefixOf_self]
  | cons c t ih => simp [containsSub, ih]

/-- A string always `includes` its own suffix. -/
theorem strIncludes_append_left (a b : String) :
    strIncludes (a ++ b) b = true := by
  have h : (a ++ b).toList = a.toList ++ b.toList := rfl
  simp [strIncludes, h, containsSub_append_self]

/-- `takeWhile` over a block of satisfying elements followed by a
non-satisfying one. -/
theorem takeWhile_block {α : Type} (p : α → Bool) (w : List α) (b : α)
    (t : List α) (hw : ∀ c ∈ w, p c = true) (hb : p b = false) :
    (w ++ b :: t).takeWhile p = w := by
  induction w with
  | nil => simp [List.takeWhile, hb]
  | cons a w ih =>
    have ha : p a = true := hw a (by simp)
    simp [List.takeWhile, ha, ih fun c hc => hw c (by simp [hc])]

/-- `dropWhile` over a block of satisfying elements followed by a
non-satisfying one. -/
theorem dropWhile_block {α : Type} (p : α → Bool) (w : List α) (b : α)
    (t : List α) (hw : ∀ c ∈ w, p c = true) (hb : p b = false) :
    (w ++ b :: t).dropWhile p = b :: t := by
  induction w with
  | nil => simp [List.dropWhile, hb]
  | cons a w ih =>
    have ha : p a = true := hw a (by simp)
    simp [List.dropWhile, ha, ih fun c hc => hw c (by simp [hc])]

/-- `find?` skips a block of non-matching elements and stops at the
first match. -/
theorem find?_block {α : Type} (p : α → Bool) (pre : List α) (x : α)
    (post : List α) (hpre : ∀ q ∈ pre, p q = false) (hx : p x = true) :
    (pre ++ x :: post).find? p = some x := by
  induction pre with
  | nil => simp [List.find?, hx]
  | cons a t ih =>
    have ha : p a = false := hpre a (by simp)
    simp [List.find?, ha, ih fun q hq => hpre q (by simp [hq])]

/-! ## Retrying call wrapper lemmas -/

/-- The retry loop issues at most `remaining` further calls. -/
theorem retryLoop_calls_le (stub : Nat → Except String GenResponse) :
    ∀ remaining attempt calls delays,
      (retryLoop stub remaining attempt calls delays).callsMade ≤
        calls + remaining := by
  intro remaining
  induction remaining with
  | zero => intro attempt calls delays; simp [retryLoop]
  | succ r ih =>
    intro attempt calls delays
    simp only [retryLoop]
    cases hstub : stub attempt with
    | ok resp => simp only; omega
    | error msg =>
      simp only
      by_cases hc : isInternalError msg = true ∧ attempt < maxRetries
      · rw [if_pos hc]
        have := ih (attempt + 1) (calls + 1)
          (delays ++ [initialDelay * 2 ^ (attempt - 1)])
        omega
      · rw [if_neg hc]; simp only; omega

/-- Trace invariant of the retry loop: the recorded delays are exactly
the exponential-backoff waits `initialDelay * 2 ^ i` for the retries
performed. -/
theorem retryLoop_delays (stub : Nat → Except String GenResponse) :
    ∀ remaining attempt calls delays,
      attempt = calls + 1 →
      attempt + remaining = maxRetries + 1 →
      attempt ≤ maxRetries →
      delays = (List.range calls).map (fun i => initialDelay * 2 ^ i) →
      (retryLoop stub remaining attempt calls delays).delays =
        (List.range ((retryLoop stub remaining attempt calls delays).callsMade - 1)).map
          (fun i => initialDelay * 2 ^ i) := by
  intro remaining
  induction remaining with
  | zero =>
    intro attempt calls delays h1 h2 h3 h4
    simp [maxRetries] at h2 h3
    omega
  | succ r ih =>
    intro attempt calls delays h1 h2 h3 h4
    simp only [retryLoop]
    cases hstub : stub attempt with
    | ok resp => simpa using h4
    | error msg =>
      simp only
      by_cases hc : isInternalError msg = true ∧ attempt < maxRetries
      · rw [if_pos hc]
        refine ih (attempt + 1) (calls + 1) _ (by omega) (by omega) (by omega) ?_
        rw [h4, List.range_succ, List.map_append]
        simp [h1]
      · rw [if_neg hc]
        simpa using h4

/-- Every non-final call of the retry loop failed with a
transient-classified error: the wrapper retries only on such failures. -/
theorem retryLoop_retries_transient (stub : Nat → Except String GenResponse) :
    ∀ remaining attempt calls delays j,
      attempt = calls + 1 →
      calls ≤ j →
      j + 1 < (retryLoop stub remaining attempt calls delays).callsMade →
      ∃ m, stub (j + 1) = .error m ∧ isInternalError m = true := by
  intro remaining
  induction remaining with
  | zero =>
    intro attempt calls delays j h1 h2 h3
    simp [retryLoop] at h3
    omega
  | succ r ih =>
    intro attempt calls delays j h1 h2 h3
    simp only [retryLoop] at h3
    cases hstub : stub attempt with
    | ok resp => simp only [hstub] at h3; omega
    | error msg =>
      simp only [hstub] at h3
      by_cases hc : isInternalError msg = true ∧ attempt < maxRetries
      · rw [if_pos hc] at h3
        rcases Nat.eq_or_lt_of_le h2 with heq | hlt
        · subst heq
          exact ⟨msg, by rw [← h1]; exact ⟨hstub, hc.1⟩⟩
        · exact ih (attempt + 1) (calls + 1) _ j (by omega) (by omega) h3
      · rw [if_neg hc] at h3
        simp only at h3
        omega

/-! ## Claim C1: retry budget, transient-only retries, exponential backoff -/

/-- C1: `callGeminiWithRetry` issues at most 3 upstream attempts; every
retried (non-final) attempt failed with a transient-classified error; the
waits before the retries are `1000 * 2 ^ (attempt - 1)`; and for a stub
failing transiently on the first two calls and succeeding on the third,
the wrapper returns the successful response unmodified after exactly 3
calls with waits of 1000 and 2000 time-units. -/
theorem c1_retry_wrapper :
    (∀ stub : Nat → Except String GenResponse,
      (callGeminiWithRetry stub).callsMade ≤ 3 ∧
      (callGeminiWithRetry stub).delays =
        (List.range ((callGeminiWithRetry stub).callsMade - 1)).map
          (fun i => 1000 * 2 ^ i) ∧
      (∀ j, j + 1 < (callGeminiWithRetry stub).callsMade →
        ∃ m, stub (j + 1) = .error m ∧ isInternalError m = true)) ∧
    (∀ (stub : Nat → Except String GenResponse) (r : GenResponse) (e1 e2 : String),
      stub 1 = .error e1 → stub 2 = .error e2 → stub 3 = .ok r →
      isInternalError e1 = true → isInternalError e2 = true →
      (callGeminiWithRetry stub).result = .ok r ∧
      (callGeminiWithRetry stub).callsMade = 3 ∧
      (callGeminiWithRetry stub).delays = [1000, 2000]) := by
  constructor
  · intro stub
    refine ⟨?_, ?_, ?_⟩
    · have h := retryLoop_calls_le stub maxRetries 1 0 []
      simpa [callGeminiWithRetry, maxRetries] using h
    · have h := retryLoop_delays stub maxRetries 1 0 [] rfl rfl
        (by simp [maxRetries]) (by simp)
      simpa [callGeminiWithRetry, initialDelay] using h
    · intro j hj
      exact retryLoop_retries_transient stub maxRetries 1 0 [] j rfl
        (Nat.zero_le j) hj
  · intro stub r e1 e2 h1 h2 h3 ht1 ht2
    have hcall : callGeminiWithRetry stub =
        ⟨.ok r, 3, [1000, 2000]⟩ := by
      simp only [callGeminiWithRetry, maxRetries, retryLoop, h1]
      rw [if_pos ⟨ht1, by omega⟩]
      simp only [retryLoop, h2]
      rw [if_pos ⟨ht2, by omega⟩]
      simp only [retryLoop, h3]
      norm_num [initialDelay]
    rw [hcall]
    exact ⟨rfl, rfl, rfl⟩

/-- Witness for C1: the two-transient-failures-then-success stub. -/
theorem c1_retry_wrapper_witness :
    (callGeminiWithRetry stubTwoTransient).result = .ok respImage ∧
    (callGeminiWithRetry stubTwoTransient).callsMade = 3 ∧
    (callGeminiWithRetry stubTwoTransient).delays = [1000, 2000] :=
  c1_retry_wrapper.2 stubTwoTransient respImage "INTERNAL" "INTERNAL"
    rfl rfl rfl (by decide) (by decide)

/-! ## Claim C5: non-transient and budget-exhausted failures propagate -/

/-- C5: a non-transient failure on the first call is propagated at once
(one call, no waits); after the final attempt of the budget the last
failure is propagated with no further retry; and for a primary failure
whose message is neither transient-handled nor the no-image marker, the
per-style generation run makes no fallback attempt and terminates with a
`Failed` outcome carrying that error's message. -/
theorem c5_nontransient_propagation :
    (∀ (stub : Nat → Except String GenResponse) (msg : String),
      stub 1 = .error msg → isInternalError msg = false →
      (callGeminiWithRetry stub).result = .error msg ∧
      (callGeminiWithRetry stub).callsMade = 1 ∧
      (callGeminiWithRetry stub).delays = []) ∧
    (∀ (stub : Nat → Except String GenResponse) (e1 e2 e3 : String),
      stub 1 = .error e1 → stub 2 = .error e2 → stub 3 = .error e3 →
      isInternalError e1 = true → isInternalError e2 = true →
      (callGeminiWithRetry stub).result = .error e3 ∧
      (callGeminiWithRetry stub).callsMade = 3) ∧
    (∀ (env : String → Nat → Except String GenResponse)
        (urls : List String) (prompt msg : String) (n : Nat)
        (ps : List InlinePart),
      parseAllImages urls = .ok ps →
      attemptPrompt processGeminiResponse env prompt = (.error msg, n) →
      strIncludes msg noImageMarker = false →
      generateStyleImage env urls prompt =
        ⟨.error ("The AI model failed to generate an image. Details: " ++ msg),
          [prompt], n⟩ ∧
      strIncludes
        ("The AI model failed to generate an image. Details: " ++ msg) msg
          = true ∧
      (processStyleOutcome (generateStyleImage env urls prompt).result).status
          = ImageStatus.error) := by
  refine ⟨?_, ?_, ?_⟩
  · intro stub msg h1 hnt
    have hcall : callGeminiWithRetry stub = ⟨.error msg, 1, []⟩ := by
      simp only [callGeminiWithRetry, maxRetries, retryLoop, h1]
      rw [if_neg (by simp [hnt])]
    rw [hcall]
    exact ⟨rfl, rfl, rfl⟩
  · intro stub e1 e2 e3 h1 h2 h3 ht1 ht2
    have hcall : callGeminiWithRetry stub =
        ⟨.error e3, 3, [1000, 2000]⟩ := by
      simp only [callGeminiWithRetry, maxRetries, retryLoop, h1]
      rw [if_pos ⟨ht1, by omega⟩]
      simp only [retryLoop, h2]
      rw [if_pos ⟨ht2, by omega⟩]
      simp only [retryLoop, h3]
      rw [if_neg (by omega)]
      norm_num [initialDelay]
    rw [hcall]
    exact ⟨rfl, rfl⟩
  · intro env urls prompt msg n ps hparse hatt hni
    have hrun : generateStyleImage env urls prompt =
        ⟨.error ("The AI model failed to generate an image. Details: " ++ msg),
          [prompt], n⟩ := by
      simp only [generateStyleImage, generateStyleImageWith, hparse, hatt]
      rw [if_neg (by simp [hni])]
    refine ⟨hrun, ?_, ?_⟩
    · exact strIncludes_append_left
        "The AI model failed to generate an image. Details: " msg
    · rw [hrun]; rfl

/-- Witness for C5: a `PERMISSION_DENIED` upstream failure on the first
call is not retried and the per-style run fails without fallback. -/
theorem c5_nontransient_propagation_witness :
    generateStyleImage envDenied ["data:image/png;base64,QUJD"]
        (processStylePrompt "Modern") =
      ⟨.error
          "The AI model failed to generate an image. Details: PERMISSION_DENIED",
        [processStylePrompt "Modern"], 1⟩ :=
  (c5_nontransient_propagation.2.2 envDenied ["data:image/png;base64,QUJD"]
    (processStylePrompt "Modern") "PERMISSION_DENIED" 1
    [⟨"image/png", "QUJD"⟩] rfl rfl (by decide)).1

/-! ## Claim C6: style extraction round-trips on the catalogue -/

/-- C6: for every catalogue style, `extractStyle` recovers exactly that
style from the primary instruction text built by `processStyle`; and when
no style is recoverable from a prompt, the fallback is skipped and the
original no-image failure is propagated unchanged. -/
theorem c6_style_extraction :
    (∀ s ∈ STYLES, extractStyle (processStylePrompt s) = some s) ∧
    (∀ (env : String → Nat → Except String GenResponse)
        (urls : List String) (prompt msg : String) (n : Nat)
        (ps : List InlinePart),
      parseAllImages urls = .ok ps →
      attemptPrompt processGeminiResponse env prompt = (.error msg, n) →
      strIncludes msg noImageMarker = true →
      extractStyle prompt = none →
      generateStyleImage env urls prompt = ⟨.error msg, [prompt], n⟩) := by
  constructor
  · decide
  · intro env urls prompt msg n ps hparse hatt hni hex
    simp only [generateStyleImage, generateStyleImageWith, hparse, hatt]
    rw [if_pos hni, hex]

/-! ## Claim C7: response interpretation and data-URL round trip -/

/-- Core round-trip fact at the character-list level: the regular
expression parse of `data:image/<w>;base64,<payload>` recovers the media
type and the payload, for a non-empty word-character media subtype and a
line-terminator-free payload. -/
theorem parseDataUrl_roundtrip_core (w payload : List Char)
    (hw : w ≠ []) (hword : ∀ c ∈ w, isWordChar c = true)
    (hdot : ∀ c ∈ payload, jsDotChar c = true) :
    parseDataUrl ⟨"data:image/".toList ++ (w ++ (";base64,".toList ++ payload))⟩
      = some (⟨'i' :: 'm' :: 'a' :: 'g' :: 'e' :: '/' :: w⟩, ⟨payload⟩) := by
  have hsemi : isWordChar ';' = false := by decide
  have hsb : (";base64,".toList ++ payload)
      = ';' :: ("base64,".toList ++ payload) := rfl
  have hcs :
      (String.mk
          ("data:image/".toList ++ (w ++ (";base64,".toList ++ payload)))).toList
        = "data:image/".toList ++ (w ++ (";base64,".toList ++ payload)) := rfl
  simp only [parseDataUrl, hcs]
  rw [if_pos (isPrefixOf_append_self _ _), List.drop_left, hsb,
    takeWhile_block isWordChar w ';' _ hword hsemi,
    dropWhile_block isWordChar w ';' _ hword hsemi,
    if_pos ⟨hw, by rw [← hsb]; exact isPrefixOf_append_self _ _⟩]
  rw [show (';' :: ("base64,".toList ++ payload)).drop ";base64,".toList.length
      = payload from by rw [← hsb]; exact List.drop_left _ _]
  rw [if_pos (List.all_eq_true.mpr hdot)]

/-- C7 counterexample: on a response with no inline-image part and no
text, the interpreter's failure carries the placeholder
`No text response received.` rather than the empty string. -/
theorem c7_counterexample :
    processGeminiResponse ⟨none, none, none⟩ =
      .error
        "The AI model responded with text instead of an image: \"No text response received.\"" ∧
    ("The AI model responded with text instead of an image: \"No text response received.\""
      ≠ "The AI model responded with text instead of an image: \"\"") :=
  ⟨rfl, by decide⟩

/-- C7 (amended): the interpreter returns the payload of the first
content part carrying inline image data, rebuilt as
`data:<mediaType>;base64,<data>`, whose re-parse recovers the identical
media type and payload; with no such part it raises the no-image failure
carrying the response's textual explanation when non-empty, and the
placeholder `No text response received.` otherwise. -/
theorem c7_response_interpreter :
    (∀ (r : GenResponse) (pre post : List GenPart) (p : GenPart)
        (d : InlineData),
      partsV r = pre ++ p :: post →
      (∀ q ∈ pre, q.inlineData = none) →
      p.inlineData = some d →
      processGeminiResponse r = .ok (mkDataUrl d.mimeType d.data)) ∧
    (∀ r : GenResponse, (∀ p ∈ partsV r, p.inlineData = none) →
      processGeminiResponse r =
        .error ("The AI model responded with text instead of an image: \""
          ++ jsOr r.text "No text response received." ++ "\"")) ∧
    (∀ (mt payload : String) (w : List Char),
      mt.toList = 'i' :: 'm' :: 'a' :: 'g' :: 'e' :: '/' :: w →
      w ≠ [] →
      (∀ c ∈ w, isWordChar c = true) →
      (∀ c ∈ payload.toList, jsDotChar c = true) →
      parseDataUrl (mkDataUrl mt (some payload)) = some (mt, payload)) := by
  refine ⟨?_, ?_, ?_⟩
  · intro r pre post p d hparts hpre hpd
    have hfind : (partsV r).find? (fun q => q.inlineData.isSome) = some p := by
      rw [hparts]
      exact find?_block _ pre p post
        (fun q hq => by simp [hpre q hq]) (by simp [hpd])
    simp only [processGeminiResponse, hfind, hpd]
  · intro r hall
    have hfind : (partsV r).find? (fun q => q.inlineData.isSome) = none :=
      List.find?_eq_none.mpr (fun q hq => by simp [hall q hq])
    simp only [processGeminiResponse, hfind]
  · intro mt payload w hmt hw hword hdot
    have hmtd : mt.data = 'i' :: 'm' :: 'a' :: 'g' :: 'e' :: '/' :: w := hmt
    have hmk : mkDataUrl mt (some payload)
        = ⟨"data:image/".toList
            ++ (w ++ (";base64,".toList ++ payload.toList))⟩ := by
      apply String.ext
      show ("data:" ++ mt ++ ";base64," ++ payload).data
          = "data:image/".data ++ (w ++ (";base64,".data ++ payload.data))
      rw [String.data_append, String.data_append, String.data_append, hmtd]
      rw [show "data:".data ++ ('i' :: 'm' :: 'a' :: 'g' :: 'e' :: '/' :: w)
          = "data:image/".data ++ w from rfl]
      simp [List.append_assoc]
    rw [hmk, parseDataUrl_roundtrip_core w payload.toList hw hword hdot]
    have h1 : (⟨'i' :: 'm' :: 'a' :: 'g' :: 'e' :: '/' :: w⟩ : String) = mt := by
      rw [← hmt]
      exact rfl
    have h2 : (⟨payload.toList⟩ : String) = payload := rfl
    rw [h1, h2]

/-- Witness for C7: a response whose first candidate has a leading text
part followed by an inline PNG part yields that part's data URL, and the
URL re-parses to the same media type and payload. -/
theorem c7_response_interpreter_witness :
    processGeminiResponse
        ⟨some [⟨[⟨none, some "t"⟩, ⟨some ⟨"image/png", some "QUJD"⟩, none⟩]⟩],
          none, none⟩
      = .ok (mkDataUrl "image/png" (some "QUJD")) ∧
    parseDataUrl (mkDataUrl "image/png" (some "QUJD"))
      = some ("image/png", "QUJD") :=
  ⟨c7_response_interpreter.1
      ⟨some [⟨[⟨none, some "t"⟩, ⟨some ⟨"image/png", some "QUJD"⟩, none⟩]⟩],
        none, none⟩
      [⟨none, some "t"⟩] [] ⟨some ⟨"image/png", some "QUJD"⟩, none⟩
      ⟨"image/png", some "QUJD"⟩ rfl (by decide) rfl,
    c7_response_interpreter.2.2 "image/png" "QUJD" "png".toList rfl
      (by decide) (by decide) (by decide)⟩

/-! ## Claim C2: prompt-fallback behaviour of the two server variants -/

set_option maxRecDepth 8192 in
/-- C2 (evaluation at the failing input): with an upstream that returns a
text-only response for the primary "Modern" prompt and an image for any
other prompt, the Vercel variant performs exactly one fallback attempt
and succeeds, while the Netlify variant — whose own interpreter throws
`The AI model did not generate an image...`, a message that does not
contain the marker its `isNoImageError` check looks for — never attempts
the fallback and fails instead. -/
theorem c2_fallback_dead_in_netlify :
    (generateStyleImage envTextThenImage ["data:image/png;base64,QUJD"]
        (processStylePrompt "Modern")).promptsSent
      = [processStylePrompt "Modern", getFallbackPrompt "Modern"] ∧
    (generateStyleImage envTextThenImage ["data:image/png;base64,QUJD"]
        (processStylePrompt "Modern")).result
      = .ok "data:image/png;base64,QUJD" ∧
    extractStyle (processStylePrompt "Modern") = some "Modern" ∧
    (generateStyleImageNetlify envTextThenImage ["data:image/png;base64,QUJD"]
        (processStylePrompt "Modern")).promptsSent
      = [processStylePrompt "Modern"] ∧
    (generateStyleImageNetlify envTextThenImage ["data:image/png;base64,QUJD"]
        (processStylePrompt "Modern")).result
      = .error
          "The AI model failed to generate an image. Details: The AI model did not generate an image. Response: \"cannot comply\"" :=
  ⟨rfl, rfl, rfl, rfl, rfl⟩

/-! ## Claim C10: empty inline image data is never a success (Netlify) -/

/-- C10: in the Netlify response interpreter, a first inline-data part
with a missing or empty data string raises the `Image data is empty`
failure instead of a success carrying an empty payload. -/
theorem c10_netlify_empty_image_data :
    ∀ (r : GenResponse) (d : InlineData),
      netlifyScanParts (partsN r) = some d →
      (d.data = none ∨ d.data = some "") →
      processGeminiResponseNetlify r = .error "Image data is empty" := by
  intro r d h hd
  rcases hd with hd | hd
  · simp [processGeminiResponseNetlify, h, hd]
  · simp [processGeminiResponseNetlify, h, hd]

/-- Witness for C10: a response whose single part carries inline data
with an empty payload string. -/
theorem c10_netlify_empty_image_data_witness :
    processGeminiResponseNetlify respEmptyData = .error "Image data is empty" :=
  c10_netlify_empty_image_data respEmptyData ⟨"image/png", some ""⟩ rfl
    (Or.inr rfl)

/-! ## Claim C9: regeneration of a pending style is a no-op -/

/-- C9: `handleRegenerateStyle` on a style whose session entry is
`pending` leaves the entire session map unchanged (that style and every
other style) and issues no generation call. -/
theorem c9_regenerate_pending_noop :
    ∀ (env : Except String String) (uploadedImages : List String)
      (session : String → Option GeneratedImage) (style : String)
      (gi : GeneratedImage),
      session style = some gi → gi.status = ImageStatus.pending →
      (handleRegenerateStyle env uploadedImages session style).session
          = session ∧
      (∀ s, (handleRegenerateStyle env uploadedImages session style).session s
          = session s) ∧
      (handleRegenerateStyle env uploadedImages session style).callsIssued
          = 0 := by
  intro env up session style gi h1 h2
  have hcond : (session style).map (fun gi => gi.status)
      = some ImageStatus.pending := by
    rw [h1]
    simp [h2]
  have hres : handleRegenerateStyle env up session style = ⟨session, 0⟩ := by
    unfold handleRegenerateStyle
    by_cases hup : up.length = 0
    · rw [if_pos hup]
    · rw [if_neg hup, if_pos hcond]
  rw [hres]
  exact ⟨rfl, fun s => rfl, rfl⟩

/-- Witness for C9: regenerating "Modern" while it is pending. -/
theorem c9_regenerate_pending_noop_witness :
    (handleRegenerateStyle (.ok "u") ["data:image/png;base64,QUJD"]
        (fun _ => some ⟨ImageStatus.pending, none, none⟩) "Modern").callsIssued
      = 0 :=
  (c9_regenerate_pending_noop (.ok "u") ["data:image/png;base64,QUJD"]
    (fun _ => some ⟨ImageStatus.pending, none, none⟩) "Modern"
    ⟨ImageStatus.pending, none, none⟩ rfl rfl).2.2

/-! ## Claim C8: input validation before network and upstream calls -/

/-- If some member of the image list fails the data-URL regular
expression, `parseAllImages` throws the invalid-format error. -/
theorem parseAllImages_error_of_mem :
    ∀ urls : List String, (∃ u ∈ urls, parseDataUrl u = none) →
      parseAllImages urls =
        .error "Invalid image data URL format. Expected \x27data:image/...;base64,...\x27" := by
  intro urls
  induction urls with
  | nil => rintro ⟨u, hu, _⟩; cases hu
  | cons a rest ih =>
    rintro ⟨u, hu, hp⟩
    simp only [parseAllImages]
    rcases List.mem_cons.mp hu with rfl | hmem
    · rw [hp]
    · cases hpa : parseDataUrl a with
      | none => rfl
      | some v =>
        obtain ⟨mt, d⟩ := v
        simp only [ih ⟨u, hmem, hp⟩]

/-- C8 counterexample: the data URL `data:image/png` fails the
`data:<mediaType>;base64,<payload>` shape check, yet the frontend
validation passes it (only the `data:image/` prefix is checked
client-side), so the network call to the proxy is issued. -/
theorem c8_counterexample :
    frontendIssuesFetch ["data:image/png"] "p" = true ∧
    parseDataUrl "data:image/png" = none := ⟨rfl, rfl⟩

/-- C8 (amended): an empty image set, a blank prompt, or a URL failing
the `data:image/` prefix check is rejected by the frontend before the
network call; a URL failing the full data-URL shape (possibly passing
the prefix check) is rejected by the server-side `generateStyleImage`
before any upstream call, with no retry and no prompt sent. -/
theorem c8_input_validation :
    (∀ prompt, validateGenerateRequest [] prompt =
        some "At least one image is required for remodeling") ∧
    (∀ (urls : List String) (prompt : String), urls ≠ [] →
      (jsTrim prompt).length = 0 →
      validateGenerateRequest urls prompt =
        some "A prompt is required for image generation") ∧
    (∀ (urls : List String) (prompt : String),
      (validateGenerateRequest urls prompt).isSome = true →
      frontendIssuesFetch urls prompt = false) ∧
    (∀ (urls : List String) (prompt u : String), u ∈ urls →
      jsStartsWith u "data:image/" = false →
      urls ≠ [] → (jsTrim prompt).length ≠ 0 →
      validateGenerateRequest urls prompt =
        some "All images must be valid data URLs") ∧
    (∀ (env : String → Nat → Except String GenResponse)
        (urls : List String) (prompt u : String),
      u ∈ urls → parseDataUrl u = none →
      (generateStyleImage env urls prompt).promptsSent = [] ∧
      (generateStyleImage env urls prompt).result =
        .error "Invalid image data URL format. Expected \x27data:image/...;base64,...\x27") := by
  refine ⟨?_, ?_, ?_, ?_, ?_⟩
  · intro prompt; rfl
  · intro urls prompt hne hblank
    cases urls with
    | nil => exact absurd rfl hne
    | cons a t =>
      simp only [validateGenerateRequest]
      rw [if_neg (by simp), if_pos hblank]
  · intro urls prompt h
    cases hv : validateGenerateRequest urls prompt with
    | none => rw [hv] at h; simp at h
    | some v => unfold frontendIssuesFetch; rw [hv]; rfl
  · intro urls prompt u hu hsw hne hblank
    cases urls with
    | nil => exact absurd rfl hne
    | cons a t =>
      simp only [validateGenerateRequest]
      rw [if_neg (by simp), if_neg hblank]
      cases hf : (a :: t).find? (fun x => !(jsStartsWith x "data:image/")) with
      | some z => rfl
      | none =>
        exfalso
        have hnone := List.find?_eq_none.mp hf u hu
        simp [hsw] at hnone
  · intro env urls prompt u hu hp
    have he := parseAllImages_error_of_mem urls ⟨u, hu, hp⟩
    constructor
    · simp only [generateStyleImage, generateStyleImageWith, he]
    · simp only [generateStyleImage, generateStyleImageWith, he]

/-- Witness for C8: the shape-failing URL `data:image/png` is rejected
server-side with no prompt ever sent upstream. -/
theorem c8_input_validation_witness :
    (generateStyleImage envImage ["data:image/png"] "p").promptsSent = [] :=
  (c8_input_validation.2.2.2.2 envImage ["data:image/png"] "p"
    "data:image/png" (by decide) rfl).1

/-- Witness for C6: a prompt with no embedded catalogue style propagates
the original no-image failure with no fallback call. -/
theorem c6_style_extraction_witness :
    generateStyleImage envText ["data:image/png;base64,QUJD"]
        "remodel please" =
      ⟨.error
          "The AI model responded with text instead of an image: \"cannot comply\"",
        ["remodel please"], 1⟩ :=
  c6_style_extraction.2 envText ["data:image/png;base64,QUJD"]
    "remodel please"
    "The AI model responded with text instead of an image: \"cannot comply\""
    1 [⟨"image/png", "QUJD"⟩] rfl rfl (by decide) (by decide)

/-! ## Scheduler lemmas (claims C3 and C4) -/

/-- Membership survives `set` at a position holding a different value. -/
theorem mem_set_of_ne {α : Type} :
    ∀ (l : List α) (i : Nat) (a b v : α),
      a ∈ l → l.get? i = some b → a ≠ b → a ∈ l.set i v := by
  intro l
  induction l with
  | nil => intro i a b v ha _ _; cases ha
  | cons hd t ih =>
    intro i a b v ha hb hne
    cases i with
    | zero =>
      simp only [List.get?] at hb
      injection hb with hb
      rcases List.mem_cons.mp ha with rfl | hat
      · exact absurd hb hne
      · exact List.mem_cons.mpr (Or.inr hat)
    | succ j =>
      simp only [List.get?] at hb
      rcases List.mem_cons.mp ha with rfl | hat
      · exact List.mem_cons.mpr (Or.inl rfl)
      · exact List.mem_cons.mpr (Or.inr (ih j a b v hat hb hne))

/-- The value written by `set` is a member when the index is in range. -/
theorem mem_set_self {α : Type} (l : List α) (i : Nat) (v : α)
    (h : i < l.length) : v ∈ l.set i v := by
  have hv : (l.set i v).get? i = some v := by
    rw [List.get?_set_eq]
    simp [h]
  exact List.get?_mem hv

/-- Effect of `set` on the sum of a mapped weight function. -/
theorem sum_map_set {α : Type} (f : α → Nat) :
    ∀ (l : List α) (i : Nat) (v b : α),
      l.get? i = some b →
      ((l.set i v).map f).sum + f b = (l.map f).sum + f v := by
  intro l
  induction l with
  | nil => intro i v b h; cases h
  | cons a t ih =>
    intro i v b h
    cases i with
    | zero =>
      simp only [List.get?] at h
      injection h with h
      subst h
      simp [List.set]
      omega
    | succ j =>
      simp only [List.get?] at h
      have := ih j v b h
      simp only [List.set, List.map, List.sum_cons]
      omega

/-- A terminal entry is produced by every completed task. -/
theorem isTerminal_processStyleOutcome (r : Except String String) :
    isTerminal (some (processStyleOutcome r)) = true := by
  cases r <;> rfl

/-- The invariant holds when the round starts. -/
theorem schedInv_init : SchedInv initState := by
  refine ⟨by simp [initState, concurrencyLimit], ?_, ?_⟩
  · intro hmem
    have := List.eq_of_mem_replicate hmem
    cases this
  · intro s hs
    exact Or.inl hs

/-- The invariant is preserved by every scheduler transition. -/
theorem schedInv_step (env : String → Except String String)
    (st st2 : SchedState) (hstep : Step env st st2) (hinv : SchedInv st) :
    SchedInv st2 := by
  obtain ⟨hlen, hexit, hstyles⟩ := hinv
  cases hstep with
  | pop i style rest hw hq =>
    refine ⟨by simpa using hlen, ?_, ?_⟩
    · intro hmem
      rcases List.mem_or_eq_of_mem_set hmem with hmem | heq
      · have := hexit hmem
        rw [hq] at this
        cases this
      · cases heq
    · intro s hs
      rcases hstyles s hs with hqmem | hfl | hterm
      · rw [hq] at hqmem
        rcases List.mem_cons.mp hqmem with rfl | hrest
        · refine Or.inr (Or.inl ?_)
          refine mem_set_self _ i _ ?_
          rcases List.get?_eq_some.mp hw with ⟨hilt, _⟩
          exact hilt
        · exact Or.inl hrest
      · exact Or.inr (Or.inl
          (mem_set_of_ne _ i _ WorkerState.looping _ hfl hw (by simp)))
      · exact Or.inr (Or.inr hterm)
  | complete i style hw =>
    refine ⟨by simpa using hlen, ?_, ?_⟩
    · intro hmem
      rcases List.mem_or_eq_of_mem_set hmem with hmem | heq
      · exact hexit hmem
      · cases heq
    · intro s hs
      by_cases hss : s = style
      · subst hss
        refine Or.inr (Or.inr ?_)
        simp only [if_pos rfl]
        exact isTerminal_processStyleOutcome (env s)
      · rcases hstyles s hs with hqmem | hfl | hterm
        · exact Or.inl hqmem
        · refine Or.inr (Or.inl
            (mem_set_of_ne _ i _ (WorkerState.inFlight style) _ hfl hw ?_))
          intro hc
          injection hc with hc
          exact hss hc
        · refine Or.inr (Or.inr ?_)
          simpa [if_neg hss] using hterm
  | exitw i hw hq =>
    refine ⟨by simpa using hlen, fun _ => rfl, ?_⟩
    intro s hs
    rcases hstyles s hs with hqmem | hfl | hterm
    · rw [hq] at hqmem
      cases hqmem
    · exact Or.inr (Or.inl
        (mem_set_of_ne _ i _ WorkerState.looping _ hfl hw (by simp)))
    · exact Or.inr (Or.inr hterm)

/-- The invariant holds in every reachable round state. -/
theorem schedInv_reachable (env : String → Except String String)
    (st : SchedState) (h : Reachable env st) : SchedInv st := by
  induction h with
  | refl => exact schedInv_init
  | tail hsteps hstep ih => exact schedInv_step env _ _ hstep ih

/-- Once every worker has exited, every catalogue style has a terminal
session entry. -/
theorem sched_allExited_terminal (env : String → Except String String)
    (st : SchedState) (hreach : Reachable env st) (hex : allExited st) :
    ∀ s ∈ STYLES, isTerminal (st.session s) = true := by
  obtain ⟨hlen, hexit, hstyles⟩ := schedInv_reachable env st hreach
  intro s hs
  have hne : st.workers ≠ [] := by
    intro hnil
    rw [hnil] at hlen
    cases hlen
  obtain ⟨w, hwmem⟩ := List.exists_mem_of_ne_nil st.workers hne
  have hwe : w = WorkerState.exited := hex w hwmem
  subst hwe
  have hqempty : st.queue = [] := hexit hwmem
  rcases hstyles s hs with hqmem | hfl | hterm
  · rw [hqempty] at hqmem
    cases hqmem
  · have := hex _ hfl
    cases this
  · exact hterm

/-- A state with a non-exited worker can always take a step. -/
theorem sched_progress (env : String → Except String String)
    (st : SchedState) (hne : ¬ allExited st) : ∃ st2, Step env st st2 := by
  have hex : ∃ w ∈ st.workers, ¬ w = WorkerState.exited := by
    by_contra hall
    push_neg at hall
    exact hne hall
  obtain ⟨w, hwmem, hwne⟩ := hex
  obtain ⟨i, hi⟩ := List.mem_iff_get?.mp hwmem
  cases w with
  | looping =>
    cases hq : st.queue with
    | nil => exact ⟨_, Step.exitw st i hi hq⟩
    | cons style rest => exact ⟨_, Step.pop st i style rest hi hq⟩
  | inFlight style => exact ⟨_, Step.complete st i style hi⟩
  | exited => exact absurd rfl hwne

/-- No transition applies once all workers have exited. -/
theorem stuck_of_allExited (env : String → Except String String)
    (st : SchedState) (hex : allExited st) : StuckState env st := by
  rintro ⟨st2, hstep⟩
  cases hstep with
  | pop i style rest hw _ =>
    have := hex _ (List.get?_mem hw)
    cases this
  | complete i style hw =>
    have := hex _ (List.get?_mem hw)
    cases this
  | exitw i hw _ =>
    have := hex _ (List.get?_mem hw)
    cases this

/-- Every scheduler transition strictly decreases the round measure. -/
theorem roundMeasure_step (env : String → Except String String)
    (st st2 : SchedState) (hstep : Step env st st2) :
    roundMeasure st2 < roundMeasure st := by
  cases hstep with
  | pop i style rest hw hq =>
    have hsum := sum_map_set workerWeight st.workers i
      (WorkerState.inFlight style) WorkerState.looping hw
    simp only [roundMeasure, hq, workerWeight] at *
    simp only [List.length_cons]
    omega
  | complete i style hw =>
    have hsum := sum_map_set workerWeight st.workers i
      WorkerState.looping (WorkerState.inFlight style) hw
    simp only [roundMeasure, workerWeight] at *
    omega
  | exitw i hw hq =>
    have hsum := sum_map_set workerWeight st.workers i
      WorkerState.exited WorkerState.looping hw
    simp only [roundMeasure, hq, workerWeight] at *
    omega

/-- A complete demonstration run: worker 0 drains the whole catalogue,
then both workers exit on the empty queue. -/
theorem sched_demo_run :
    ∃ st, Reachable envTaskOk st ∧ allExited st := by
  have h0 : Reachable envTaskOk initState := Relation.ReflTransGen.refl
  have h1 := Relation.ReflTransGen.tail h0
    (Step.pop _ 0 "Modern" _ rfl rfl)
  have h2 := Relation.ReflTransGen.tail h1
    (Step.complete _ 0 "Modern" rfl)
  have h3 := Relation.ReflTransGen.tail h2
    (Step.pop _ 0 "Scandinavian" _ rfl rfl)
  have h4 := Relation.ReflTransGen.tail h3
    (Step.complete _ 0 "Scandinavian" rfl)
  have h5 := Relation.ReflTransGen.tail h4
    (Step.pop _ 0 "Industrial" _ rfl rfl)
  have h6 := Relation.ReflTransGen.tail h5
    (Step.complete _ 0 "Industrial" rfl)
  have h7 := Relation.ReflTransGen.tail h6
    (Step.pop _ 0 "Bohemian" _ rfl rfl)
  have h8 := Relation.ReflTransGen.tail h7
    (Step.complete _ 0 "Bohemian" rfl)
  have h9 := Relation.ReflTransGen.tail h8
    (Step.pop _ 0 "Farmhouse" _ rfl rfl)
  have h10 := Relation.ReflTransGen.tail h9
    (Step.complete _ 0 "Farmhouse" rfl)
  have h11 := Relation.ReflTransGen.tail h10
    (Step.pop _ 0 "Minimalist" _ rfl rfl)
  have h12 := Relation.ReflTransGen.tail h11
    (Step.complete _ 0 "Minimalist" rfl)
  have h13 := Relation.ReflTransGen.tail h12
    (Step.exitw _ 0 rfl rfl)
  have h14 := Relation.ReflTransGen.tail h13
    (Step.exitw _ 1 rfl rfl)
  refine ⟨_, h14, ?_⟩
  unfold allExited
  decide

/-! ## Claim C3: bounded concurrency and completion -/

/-- C3: in every reachable state of a generation round at most
`concurrencyLimit = 2` style tasks are in flight; when no transition
applies, all workers have exited and every catalogue style's task has
run to a recorded terminal completion; and every transition strictly
decreases a termination measure, so every round settles. -/
theorem c3_bounded_concurrency :
    ∀ (env : String → Except String String) (st : SchedState),
      Reachable env st →
      countInFlight st ≤ concurrencyLimit ∧
      (StuckState env st →
        allExited st ∧ ∀ s ∈ STYLES, isTerminal (st.session s) = true) ∧
      (∀ st2, Step env st st2 → roundMeasure st2 < roundMeasure st) := by
  intro env st hreach
  obtain ⟨hlen, _, _⟩ := schedInv_reachable env st hreach
  refine ⟨?_, ?_, ?_⟩
  · calc countInFlight st ≤ st.workers.length := List.length_filter_le _ _
      _ = concurrencyLimit := hlen
  · intro hstuck
    have hex : allExited st := by
      by_contra hne
      exact hstuck (sched_progress env st hne)
    exact ⟨hex, sched_allExited_terminal env st hreach hex⟩
  · intro st2 hstep
    exact roundMeasure_step env st st2 hstep

/-- Witness for C3: the demonstration run ends in a stuck, fully-exited
state in which the bound held and every style completed. -/
theorem c3_bounded_concurrency_witness :
    ∃ st, Reachable envTaskOk st ∧ countInFlight st ≤ concurrencyLimit ∧
      allExited st ∧ ∀ s ∈ STYLES, isTerminal (st.session s) = true := by
  obtain ⟨st, hr, hex⟩ := sched_demo_run
  have h := c3_bounded_concurrency envTaskOk st hr
  exact ⟨st, hr, h.1, hex,
    (h.2.1 (stuck_of_allExited envTaskOk st hex)).2⟩

/-! ## Claim C4: session lifecycle of a generation round -/

/-- C4: right after a round starts every catalogue style's session entry
is `pending`, and in any reachable state in which all workers have
exited, every catalogue style's entry is terminal (`done` or `error`) —
no style remains `pending` once the round settles. -/
theorem c4_session_lifecycle :
    (∀ s ∈ STYLES,
      initState.session s = some ⟨ImageStatus.pending, none, none⟩) ∧
    (∀ (env : String → Except String String) (st : SchedState),
      Reachable env st → allExited st →
      ∀ s ∈ STYLES, isTerminal (st.session s) = true) := by
  constructor
  · decide
  · intro env st hreach hex
    exact sched_allExited_terminal env st hreach hex

/-- Witness for C4: the demonstration run reaches a fully-exited state
whose "Modern" entry is terminal; the initial entry was pending. -/
theorem c4_session_lifecycle_witness :
    initState.session "Modern" = some ⟨ImageStatus.pending, none, none⟩ ∧
    ∃ st, Reachable envTaskOk st ∧ allExited st ∧
      isTerminal (st.session "Modern") = true := by
  refine ⟨c4_session_lifecycle.1 "Modern" (by decide), ?_⟩
  obtain ⟨st, hr, hex⟩ := sched_demo_run
  exact ⟨st, hr, hex,
    c4_session_lifecycle.2 envTaskOk st hr hex "Modern" (by decide)⟩

end InstantRemodel
